import Mathlib

/-!
# Verification of the log anomaly-detection pipeline

Shallow embedding of the core pipeline of the Datakat AI server:
the Matcher (`app/services/anomaly.py`), the Clusterer
(`app/services/clustering.py`), the Cursor Reader and Writer
(`app/services/elastic.py`), the Alerter
(`app/scheduler.py::check_anomaly_threshold`,
`app/services/alert_config_service.py`) and the Scheduler tick
(`app/scheduler.py::run`).

External libraries the code calls (scikit-learn TF-IDF and DBSCAN,
fuzzywuzzy `partial_ratio`, the regex normalizers of
`app/services/preprocess.py`, the Elasticsearch client) are modelled as
oracle parameters: the embedding takes their outputs as inputs and is
faithful to how the Python code consumes them.
-/

/-! ## Data model (`app/models/event.py`, `app/models/log_entry.py`) -/

/-- `app/models/event.py`: the six event ids seeded as abnormal. -/
def abnormal_event_ids : List String := ["E34", "E40", "E42", "E44", "E28", "E31"]

/-- `app/models/event.py::Event`. -/
structure Event where
  event_id : String
  template : String
  is_abnormal : Bool
deriving DecidableEq, Repr, Inhabited

/-- `Event.__init__(event_id, template, is_abnormal=False)`:
`self.is_abnormal = is_abnormal or event_id in abnormal_event_ids`. -/
def Event.init (event_id template : String) (is_abnormal : Bool := false) : Event :=
  { event_id := event_id, template := template,
    is_abnormal := is_abnormal || decide (event_id ∈ abnormal_event_ids) }

/-- `app/models/log_entry.py::LogEntry`.  The `llm_analysis` dict is attached
only by the out-of-scope LLM service and is not modelled. -/
structure LogEntry where
  id : String
  timestamp : Option String
  level : Option String
  component : Option String
  content : String
  application : Option String
  source_file : Option String
  raw_log : Option String
  event_id : Option String := none
  is_anomaly : Bool := false
  detection_timestamp : Option String := none
deriving DecidableEq, Repr, Inhabited

/-! ## Matcher (`app/services/anomaly.py`)

`AnomalyService._get_pattern` compiles a template with
`re.escape(template).replace(re.escape('<*>'), r'([^ ]+)')` and matches it
with `pattern.match(content)`, i.e. anchored at the start only.
`re.escape` makes every character of the template literal, so the compiled
regex is the template's literal text with each (leftmost, non-overlapping)
occurrence of `<*>` replaced by the group `([^ ]+)`: one or more
characters none of which is a space.  We embed the template as the list of
segments this produces and give the backtracking-regex semantics directly:
the pattern matches a content iff some decomposition of a prefix of the
content fits the segments. -/

/-- One compiled segment: a literal run of characters, or the `([^ ]+)`
group standing for an original `<*>` token. -/
inductive Seg where
  | lit (s : List Char)
  | wild
deriving DecidableEq, Repr

/-- Split a template into segments at each leftmost occurrence of `<*>`,
mirroring `str.replace` on the escaped pattern. -/
def templateSegs : List Char → List Seg
  | [] => []
  | '<' :: '*' :: '>' :: rest =>
    Seg.wild :: templateSegs rest
  | c :: rest =>
    match templateSegs rest with
    | Seg.lit s :: segs => Seg.lit (c :: s) :: segs
    | segs => Seg.lit [c] :: segs

/-- Fuelled matcher for the segment list against a content, prefix-anchored:
an exhausted segment list succeeds whatever content remains (`re.match`
does not anchor the end).  A `wild` segment consumes one or more non-space
characters; all split points are tried, which is exactly the success
condition of the backtracking regex engine.  Every recursive call strictly
decreases `segs.length + cs.length`, so the fuel below never runs out. -/
def segsMatchF : Nat → List Seg → List Char → Bool
  | 0, _, _ => false
  | _ + 1, [], _ => true
  | fuel + 1, Seg.lit s :: segs, cs =>
    s.isPrefixOf cs && segsMatchF fuel segs (cs.drop s.length)
  | _ + 1, Seg.wild :: _, [] => false
  | fuel + 1, Seg.wild :: segs, c :: cs =>
    decide (c ≠ ' ') && (segsMatchF fuel segs cs || segsMatchF fuel (Seg.wild :: segs) cs)

/-- `pattern.match(content)` viewed as a Bool: does the compiled template
match a prefix of the content? -/
def patternMatch (template content : String) : Bool :=
  let segs := templateSegs template.toList
  segsMatchF (segs.length + content.toList.length + 1) segs content.toList

/-- The inner loop of `AnomalyService.check_anomaly`: iterate the catalog in
order, first template whose pattern matches wins (`break`). -/
def findMatch (events : List Event) (content : String) : Option Event :=
  events.find? (fun e => patternMatch e.template content)

/-- Effect of one iteration of the outer loop of `check_anomaly` on a log:
on a match set `event_id` and `is_anomaly` from the winning template; on no
match set `is_anomaly = True` (and touch nothing else). -/
def classifyLog (events : List Event) (log : LogEntry) : LogEntry :=
  match findMatch events log.content with
  | some e => { log with event_id := some e.event_id, is_anomaly := e.is_abnormal }
  | none => { log with is_anomaly := true }

/-- `AnomalyService.check_anomaly(logs, event_templates)`: the Python method
mutates `logs` in place and returns the unmatched ones (`unknown_logs`);
we return both the processed list and the unknown list. -/
def check_anomaly (logs : List LogEntry) (events : List Event) :
    List LogEntry × List LogEntry :=
  (logs.map (classifyLog events),
   logs.filterMap (fun log =>
     if (findMatch events log.content).isSome then none
     else some (classifyLog events log)))

/-! ## Writer (`app/services/elastic.py::save_logs`, `save_new_events`) -/

/-- A JSON-ish value inside a bulk-update `doc`. -/
inductive DocVal where
  | str (s : String)
  | boolean (b : Bool)
  | null
deriving DecidableEq, Repr

/-- One element of the `actions` list built by `ElasticService.save_logs`:
an `update` op routed to the index the record was read from, keyed by the
record id, with `doc_as_upsert: True`. -/
structure LogAction where
  index : String
  id : String
  doc : List (String × DocVal)
  doc_as_upsert : Bool
deriving DecidableEq, Repr

/-- The `doc` dict of one per-log action: exactly the keys the Python code
writes (`save_logs`, elastic.py lines 115-118). -/
def save_logs_doc (log : LogEntry) : List (String × DocVal) :=
  [("event_id", match log.event_id with | some s => DocVal.str s | none => DocVal.null),
   ("is_anomaly", DocVal.boolean log.is_anomaly)]

/-- `ElasticService.save_logs(logs, index_names)`: the bulk action list.  The
Python loop reads `index_names[i]` for `i` in `enumerate(logs)`; in the
pipeline both lists come from the same search hits and have equal length,
which the zip reflects. -/
def save_logs (logs : List LogEntry) (index_names : List String) : List LogAction :=
  (logs.zip index_names).map (fun p =>
    { index := p.2, id := p.1.id, doc := save_logs_doc p.1, doc_as_upsert := true })

/-- A Python attribute value of an `Event` object. -/
inductive PyAttr where
  | str (s : String)
  | boolean (b : Bool)
deriving DecidableEq, Repr

/-- The attribute dictionary of an `Event` instance: `Event.__init__` sets
exactly `event_id`, `template` and `is_abnormal` (event.py lines 4-7). -/
def Event.attrs (e : Event) : List (String × PyAttr) :=
  [("event_id", PyAttr.str e.event_id),
   ("template", PyAttr.str e.template),
   ("is_abnormal", PyAttr.boolean e.is_abnormal)]

/-- Python attribute lookup on an `Event`: `none` is an `AttributeError`. -/
def pyGetattr (e : Event) (name : String) : Option PyAttr :=
  (e.attrs.find? (fun p => p.1 = name)).map (fun p => p.2)

/-- One element of the `actions` list of `save_new_events`, keyed by the
value the code reads for `_id`. -/
structure EventAction where
  id : PyAttr
  doc : List (String × DocVal)
  doc_as_upsert : Bool
deriving DecidableEq, Repr

/-- Building the `actions` list of `ElasticService.save_new_events`: each
action reads `event.id` for its `_id` (elastic.py line 156).  `none` means
an `AttributeError` was raised while building the list. -/
def save_new_events_actions : List Event → Option (List EventAction)
  | [] => some []
  | e :: rest =>
    match pyGetattr e "id", save_new_events_actions rest with
    | some v, some actions =>
      some ({ id := v,
              doc := [("template", DocVal.str e.template),
                      ("is_abnormal", DocVal.boolean e.is_abnormal)],
              doc_as_upsert := true } :: actions)
    | _, _ => none

/-- The actions `save_new_events` actually hands to `bulk`: the empty input
returns early, and the `try/except` of the method swallows any exception
raised while building the actions, so nothing is bulked in that case. -/
def save_new_events_writes (events : List Event) : List EventAction :=
  if events = [] then []
  else
    match save_new_events_actions events with
    | some actions => actions
    | none => []

/-! ## Cursor Reader (`app/services/elastic.py::get_logs`, `CheckpointManager`) -/

/-- One search hit of the per-tick log query, with the `_source` fields
`get_logs` reads and the backend `sort` key. -/
structure Hit where
  id : String
  index : String
  timestamp : Option String
  level : Option String
  component : Option String
  content : String
  application : Option String
  source_file : Option String
  raw_log : Option String
  event_id : Option String
  is_anomaly : Option Bool
  sort : List Int
deriving DecidableEq, Repr

/-- `get_logs`'s construction of a `LogEntry` from a hit (elastic.py lines
69-83): `event_id` defaults to `None`, `is_anomaly` to `False`. -/
def hitToLogEntry (h : Hit) : LogEntry :=
  { id := h.id, timestamp := h.timestamp, level := h.level,
    component := h.component, content := h.content,
    application := h.application, source_file := h.source_file,
    raw_log := h.raw_log, event_id := h.event_id,
    is_anomaly := h.is_anomaly.getD false }

/-- The reader's cursor state: the in-memory `last_sort_value` (`none`
models the falsy initial `0`), the checkpoint file contents, and the time
of the last save.  Timestamps are seconds as integers. -/
structure CursorState where
  last_sort_value : Option (List Int)
  persisted : Option (List Int)
  last_save_time : Int
deriving DecidableEq, Repr

/-- The value `get_logs` returns: the normal branch returns the 2-tuple
`(logs, [hit["_index"] for hit in hits])`; the `except` branch returns the
bare empty list `[]` (elastic.py line 102). -/
inductive GetLogsRet where
  | pair (logs : List LogEntry) (indices : List String)
  | bareEmptyList
deriving DecidableEq, Repr

/-- Tuple unpacking `logs, index_name = ...` in the Scheduler: a 2-tuple
unpacks; the bare empty list raises a `ValueError` (`none`). -/
def unpack2 : GetLogsRet → Option (List LogEntry × List String)
  | GetLogsRet.pair logs indices => some (logs, indices)
  | GetLogsRet.bareEmptyList => none

/-- Cursor update of `get_logs` (elastic.py lines 85-93): when the batch is
nonempty, take the sort key of the last hit; if it differs from the current
value, update in memory and, when more than 30 s have passed since the last
save, persist it. -/
def updateCursor (now : Int) (st : CursorState) (hits : List Hit) : CursorState :=
  match hits.getLast? with
  | none => st
  | some last =>
    if some last.sort ≠ st.last_sort_value then
      let st := { st with last_sort_value := some last.sort }
      if now - st.last_save_time > 30 then
        { st with persisted := some last.sort, last_save_time := now }
      else st
    else st

/-- `ElasticService.get_logs`: `resp = none` models the backend search
raising; that branch prints and returns the bare `[]` with no cursor
change.  On success it builds the log entries, updates the cursor and
returns the 2-tuple. -/
def get_logs (now : Int) (st : CursorState) (resp : Option (List Hit)) :
    GetLogsRet × CursorState :=
  match resp with
  | none => (GetLogsRet.bareEmptyList, st)
  | some hits =>
    (GetLogsRet.pair (hits.map hitToLogEntry) (hits.map (fun h => h.index)),
     updateCursor now st hits)

/-! ## Catalog loading (`app/services/elastic.py::get_events`) -/

/-- One hit of the templates-index query, with the stored `is_abnormal`
value that `get_events` never reads. -/
structure EventHit where
  event_id : String
  template : String
  stored_is_abnormal : Option Bool
deriving DecidableEq, Repr

/-- `ElasticService.get_events`: `print(hits[0])` raises `IndexError` on an
empty hit list (`none`); otherwise each event is built as
`Event(event_id=..., template=...)` — the stored `is_abnormal` is ignored
and the constructor default applies. -/
def get_events (hits : List EventHit) : Option (List Event) :=
  match hits with
  | [] => none
  | _ => some (hits.map (fun h => Event.init h.event_id h.template))

/-! ## Alerter (`app/scheduler.py::check_anomaly_threshold`,
`app/services/alert_config_service.py::update_last_alert_time`) -/

/-- `app/models/alert_config.py::AlertConfig`; `last_alert_time` in epoch
seconds, `none` when absent. -/
structure AlertConfig where
  window_hours : Int
  threshold : Int
  levels : List String
  cooldown_seconds : Int
  slack_webhook_url : String
  last_alert_time : Option Int
deriving DecidableEq, Repr

/-- Result of `requests.post(webhook_url, json=message)`: an HTTP status,
or a transport error (the call raising). -/
inductive PostResult where
  | status (code : Nat)
  | transportError
deriving DecidableEq, Repr

/-- Scheduler lines 74-83: `time_since_last_alert >= cooldown_seconds`,
with a missing `last_alert_time` giving `float('inf')`, which passes every
cooldown check. -/
def alertElapsedOk (cfg : AlertConfig) (now : Int) : Bool :=
  match cfg.last_alert_time with
  | none => true
  | some t => decide (cfg.cooldown_seconds ≤ now - t)

/-- `check_anomaly_threshold`, given the backend anomaly count and the
outcome of the webhook POST.  Returns (was the POST issued, the backend
`last_alert_time` afterwards): `update_last_alert_time(now)` is called
exactly when the POST returns status 200; a transport error propagates to
the method's `except` and skips the update; any other status only logs.
The model takes the happy path of `update_last_alert_time`, which writes
`now` into the config document. -/
def check_anomaly_threshold (cfg : AlertConfig) (now : Int) (anomaly_count : Int)
    (post : PostResult) : Bool × Option Int :=
  if cfg.threshold ≤ anomaly_count then
    if alertElapsedOk cfg now then
      match post with
      | PostResult.status code =>
        if code = 200 then (true, some now) else (true, cfg.last_alert_time)
      | PostResult.transportError => (true, cfg.last_alert_time)
    else (false, cfg.last_alert_time)
  else (false, cfg.last_alert_time)

/-! ## Preprocessor pieces used by the Clusterer
(`app/services/preprocess.py::normalize_template` and Python string
helpers).  `normalize_log` / `normalize_log_template` are regex-library
driven and enter the model as oracle parameters. -/

/-- Python whitespace, as recognized by `str.strip` / `str.split`. -/
def isPySpace (c : Char) : Bool :=
  c = ' ' || c = '\t' || c = '\n' || c = '\r' || c = '\x0b' || c = '\x0c'

/-- Python `str.strip()`. -/
def pyStrip (s : String) : String :=
  String.mk (((s.toList.dropWhile isPySpace).reverse.dropWhile isPySpace).reverse)

/-- Python `str.split()` with no argument: split on whitespace runs,
dropping leading and trailing whitespace. -/
def pySplitAux : List Char → List Char → List String
  | [], acc => if acc = [] then [] else [String.mk acc.reverse]
  | c :: rest, acc =>
    if isPySpace c then
      if acc = [] then pySplitAux rest []
      else String.mk acc.reverse :: pySplitAux rest []
    else pySplitAux rest (c :: acc)

def pySplit (s : String) : List String := pySplitAux s.toList []

/-- Replace every `<*>` by `*`, leftmost first — the `re.sub(r"<\*>", "*",
t, flags=re.IGNORECASE)` of `normalize_template` (the pattern has no cased
letter, so the flag is inert). -/
def replaceStar : List Char → List Char
  | [] => []
  | '<' :: '*' :: '>' :: rest => '*' :: replaceStar rest
  | c :: rest => c :: replaceStar rest

/-- `PreprocessService.normalize_template`. -/
def normalize_template (t : String) : String :=
  pyStrip (String.mk (replaceStar t.toList))

/-! ## Clusterer (`app/services/clustering.py`) -/

/-- `ClusteringService._is_template_too_generic` with its default
`threshold=0.8`: the wildcard fraction `wc / len >= 0.8` is decided
exactly as the rational comparison `4 * len ≤ 5 * wc` (the quotients of
small integers are far enough from 0.8 that double rounding cannot flip
the comparison). -/
def _is_template_too_generic (template : String) : Bool :=
  let tokens := pySplit (pyStrip template)
  if tokens = [] then true
  else decide (4 * tokens.length ≤ 5 * tokens.countP (fun t => t = "<*>"))

/-- The token emitted at one position by
`_generate_template_from_cluster`: the common token when every array long
enough agrees, else `<*>` (the `len(unique_tokens) == 1` test). -/
def tokenAt (token_arrays : List (List String)) (i : Nat) : String :=
  match token_arrays.filterMap (fun ts => ts[i]?) with
  | [] => "<*>"
  | t :: ts => if ts.all (fun u => u = t) then t else "<*>"

/-- The merge of consecutive `<*>` tokens (clustering.py lines 64-73). -/
def collapseStarsAux : List String → Option String → List String
  | [], _ => []
  | t :: rest, prev =>
    if t = "<*>" ∧ prev = some "<*>" then collapseStarsAux rest prev
    else t :: collapseStarsAux rest (some t)

/-- `ClusteringService._generate_template_from_cluster`. -/
def _generate_template_from_cluster (logs : List String) : String :=
  match logs with
  | [] => ""
  | [l] => l
  | _ =>
    let token_arrays := logs.map pySplit
    let max_length := (token_arrays.map List.length).foldl max 0
    let template_tokens := (List.range max_length).map (tokenAt token_arrays)
    String.intercalate " " (collapseStarsAux template_tokens none)

/-- Stable insertion by ascending template length: mirrors Python's stable
`sorted(group, key=lambda t: len(t.template))`. -/
def insertByLen (e : Event) : List Event → List Event
  | [] => [e]
  | f :: fs =>
    if e.template.length ≤ f.template.length then e :: f :: fs
    else f :: insertByLen e fs

def sortByLen : List Event → List Event
  | [] => []
  | e :: es => insertByLen e (sortByLen es)

/-- `ClusteringService._merge_similar_templates(templates, threshold)`,
with the cosine-similarity test `sim_matrix[i][j] >= threshold` supplied
as the boolean oracle `sim`.  Greedy pass in index order: an unmerged `i`
collects every unmerged `j > i` it is similar to, marks them merged, and
the member of the group at the median position after the stable
length-sort survives (`sorted_group[len(group)//2]`). -/
def mergeStep (templates : List Event) (sim : Nat → Nat → Bool)
    (st : List Bool × List Event) (i : Nat) : List Bool × List Event :=
  if st.1.getD i false then st
  else
    let js := (List.range templates.length).filter (fun j =>
      decide (i < j) && sim i j && !(st.1.getD j false))
    let merged := js.foldl (fun m j => m.set j true) st.1
    let group := templates.getD i default :: js.map (fun j => templates.getD j default)
    let sorted := sortByLen group
    let chosen := sorted.getD (group.length / 2) default
    (merged, st.2 ++ [chosen])

def _merge_similar_templates (templates : List Event) (sim : Nat → Nat → Bool) :
    List Event :=
  if templates = [] then []
  else
    ((List.range templates.length).foldl (mergeStep templates sim)
      (templates.map (fun _ => false), ([] : List Event))).2

/-- Indices carrying a given DBSCAN label (the `enumerate(labels)` pass of
clustering.py lines 156-158). -/
def labelIndices (labels : List Int) (lab : Int) : List Nat :=
  labels.enum.filterMap (fun p => if p.2 = lab then some p.1 else none)

/-- The distinct non-outlier labels in first-occurrence order — the key
order of the insertion-ordered `cluster_indices` dict. -/
def distinctLabels (labels : List Int) : List Int :=
  labels.foldl (fun acc l => if l = -1 ∨ l ∈ acc then acc else acc ++ [l]) []

/-- The per-cluster pass of `cluster_and_generate_templates` (clustering.py
lines 160-177), over the labels in dict order.  Returns
`(raw_templates, log_to_raw_template as index↦template pairs,
indices of logs in too-generic clusters)`. -/
def clustersFold (unknown : List LogEntry) (labels : List Int) :
    List Int → List String × List (Nat × String) × List Nat
  | [] => ([], [], [])
  | lab :: rest =>
    let idxs := labelIndices labels lab
    let tpl := _generate_template_from_cluster
      (idxs.map (fun i => (unknown.getD i default).content))
    let r := clustersFold unknown labels rest
    if _is_template_too_generic tpl then (r.1, r.2.1, idxs ++ r.2.2)
    else (tpl :: r.1, idxs.map (fun i => (i, tpl)) ++ r.2.1, r.2.2)

/-- Deduplication of `raw_template_objs` by raw template string, keeping
the first occurrence (clustering.py lines 181-189). -/
def dedupStep (acc : List String × List Event) (e : Event) :
    List String × List Event :=
  if e.template ∈ acc.1 then acc
  else (acc.1 ++ [e.template], acc.2 ++ [e])

def dedupByTemplate (es : List Event) : List Event :=
  (es.foldl dedupStep ([], [])).2

/-- Insertion into the `normalized_to_event` dict: overwriting keeps the
original key position, as in a Python dict. -/
def dictInsert (d : List (String × String)) (k v : String) : List (String × String) :=
  if d.any (fun p => p.1 = k) then d.map (fun p => if p.1 = k then (k, v) else p)
  else d ++ [(k, v)]

/-- The `normalized_to_event` dict built while renumbering (clustering.py
lines 196-201), keyed by the normalized merged template. -/
def normalizedToEvent (final : List Event) : List (String × String) :=
  final.foldl (fun d e => dictInsert d (normalize_template e.template) e.event_id) []

/-- The fuzzy scan of clustering.py lines 214-221: the best
`fuzz.partial_ratio` score over the dict items in order, strict
improvement only. -/
def fuzzyStep (pr : String → String → Nat) (norm : String)
    (best : Nat × Option String) (p : String × String) : Nat × Option String :=
  let score := pr norm p.1
  if best.1 < score then (score, some p.2) else best

def bestFuzzy (pr : String → String → Nat) (norm : String)
    (d : List (String × String)) : Nat × Option String :=
  d.foldl (fuzzyStep pr norm) (0, none)

/-- The residue-log mapping of clustering.py lines 203-225: exact match on
the normalized raw template first, else fuzzy best ≥ 70.  Yields the
`(index into unknown_logs, assigned event id)` pairs; a log whose lookup
misses gets nothing. -/
def residueAssignments (pr : String → String → Nat)
    (dict : List (String × String)) (log_to_raw : List (Nat × String)) :
    List (Nat × String) :=
  log_to_raw.filterMap (fun p =>
    match dict.find? (fun q => q.1 = normalize_template p.2) with
    | some q => some (p.1, q.2)
    | none =>
      match (bestFuzzy pr (normalize_template p.2) dict).2 with
      | some eid =>
        if 70 ≤ (bestFuzzy pr (normalize_template p.2) dict).1 then some (p.1, eid)
        else none
      | none => none)

/-- The library calls the Clusterer makes, as oracles: the regex
normalizer `normalize_log`, whether each TF-IDF `fit_transform` succeeds,
the DBSCAN labels, the cosine-similarity threshold test at 0.7 over the
normalized template list, and `fuzz.partial_ratio` (0-100). -/
structure ClusterOracles where
  normalizeLog : String → String
  vectorizeOk : List String → Bool
  dbscanLabels : List String → List Int
  templateVectorizeOk : List String → Bool
  simGe : List String → Nat → Nat → Bool
  partialRatio : String → String → Nat

/-- `valid_contents` (clustering.py lines 132-136): the normalized
contents that are nonempty after stripping. -/
def clusterValidContents (o : ClusterOracles) (unknown_logs : List LogEntry) :
    List String :=
  (unknown_logs.map (fun l => o.normalizeLog l.content)).filter
    (fun c => pyStrip c ≠ "")

/-- The per-cluster synthesis stage on the DBSCAN labels of the valid
contents: `(raw_templates, log_to_raw_template, generic log indices)`. -/
def clusterStep (o : ClusterOracles) (unknown_logs : List LogEntry) :
    List String × List (Nat × String) × List Nat :=
  let labels := o.dbscanLabels (clusterValidContents o unknown_logs)
  clustersFold unknown_logs labels (distinctLabels labels)

/-- `ClusteringService.cluster_and_generate_templates(unknown_logs,
event_templates)`.  Returns `none` when the template vectorizer inside
`_merge_similar_templates` raises — that exception has no handler in the
method and propagates to the Scheduler.  Otherwise returns the new catalog
together with the event-id assignments the Python code performs by
mutating the unknown logs in place (each assigned log also gets
`is_anomaly = True`); logs of too-generic clusters are assigned `"E0"`.
Empty input, an empty valid-content list, and a failing first vectorizer
all return the catalog unchanged with no assignments. -/
def cluster_and_generate_templates (o : ClusterOracles)
    (unknown_logs : List LogEntry) (event_templates : List Event) :
    Option (List Event × List (Nat × String)) :=
  if unknown_logs = [] then some (event_templates, [])
  else
    let valid_contents := clusterValidContents o unknown_logs
    if valid_contents = [] then some (event_templates, [])
    else if ¬ o.vectorizeOk valid_contents then some (event_templates, [])
    else
      let step := clusterStep o unknown_logs
      let raw_templates := step.1
      let log_to_raw := step.2.1
      let generic_idx := step.2.2
      let raw_template_objs :=
        event_templates ++ raw_templates.map (fun t => Event.init "" t true)
      let deduped := dedupByTemplate raw_template_objs
      let normalized := deduped.map (fun e => normalize_template e.template)
      if deduped ≠ [] ∧ ¬ o.templateVectorizeOk normalized then none
      else
        let merged := _merge_similar_templates deduped (o.simGe normalized)
        let final := merged.enum.map (fun p =>
          { p.2 with event_id := "E" ++ toString (p.1 + 1) })
        let dict := normalizedToEvent final
        let asg := residueAssignments o.partialRatio dict log_to_raw
          ++ generic_idx.map (fun i => (i, "E0"))
        some (final, asg)

/-! ## Scheduler tick (`app/scheduler.py::run`)

`run` fetches logs, stamps `detection_timestamp`, classifies, clusters,
writes the logs back, slices off and saves the new templates.  The Python
code threads its state by mutating the shared `LogEntry` objects: the
unknown logs handed to the Clusterer alias entries of `logs`, so the
Clusterer's assignments are visible to `save_logs`.  The model makes that
explicit: assignments are applied to the unknown sublist and merged back
into the full list by position.  The final `check_anomaly_threshold` call
is modelled separately above.  Any exception inside the `try` (including
the `ValueError` from unpacking a bare `[]`, and a vectorizer error
escaping the Clusterer) is caught at line 138 after which nothing else of
the tick runs. -/

/-- Apply the Clusterer's in-place mutations: each `(i, eid)` sets
`event_id` and `is_anomaly = True` on the i-th unknown log. -/
def applyAssignments (unknown : List LogEntry) (asg : List (Nat × String)) :
    List LogEntry :=
  asg.foldl (fun ls p =>
    match ls[p.1]? with
    | some l => ls.set p.1 { l with event_id := some p.2, is_anomaly := true }
    | none => ls) unknown

/-- Reassemble the full log list from the matcher's per-log results
(log, matched?) and the post-Clusterer unknown sublist, in order. -/
def mergeBack : List (LogEntry × Bool) → List LogEntry → List LogEntry
  | [], _ => []
  | (l, true) :: rest, us => l :: mergeBack rest us
  | (_, false) :: rest, u :: us => u :: mergeBack rest us
  | (l, false) :: rest, [] => l :: mergeBack rest []

/-- Outcome of one tick of `AnomalyDetectionScheduler.run`. -/
structure TickResult where
  logActions : List LogAction
  diffTemplates : List Event
  eventActions : List EventAction
  catalogAfter : List Event
  cursorAfter : CursorState
deriving Repr

/-- One tick: `resp = none` is a backend read error inside `get_logs`.
`detection_ts` is the `datetime.now(timezone.utc).isoformat()` stamp. -/
def runTick (o : ClusterOracles) (now : Int) (st : CursorState)
    (resp : Option (List Hit)) (catalog : List Event) (detection_ts : String) :
    TickResult :=
  let r := get_logs now st resp
  match unpack2 r.1 with
  | none =>
    -- `logs, index_name = ...` raises; the outer except ends the tick.
    { logActions := [], diffTemplates := [], eventActions := [],
      catalogAfter := catalog, cursorAfter := r.2 }
  | some (logs, indices) =>
    let logs := logs.map (fun l => { l with detection_timestamp := some detection_ts })
    let pairs := logs.map (fun l =>
      (classifyLog catalog l, (findMatch catalog l.content).isSome))
    let unknown := pairs.filterMap (fun p => if p.2 then none else some p.1)
    match cluster_and_generate_templates o unknown catalog with
    | none =>
      -- vectorizer exception propagates; the outer except ends the tick
      -- (the cursor having already advanced inside get_logs).
      { logActions := [], diffTemplates := [], eventActions := [],
        catalogAfter := catalog, cursorAfter := r.2 }
    | some (new_templates, asg) =>
      let written := mergeBack pairs (applyAssignments unknown asg)
      let diff := new_templates.drop catalog.length
      { logActions := save_logs written indices,
        diffTemplates := diff,
        eventActions := save_new_events_writes diff,
        catalogAfter := catalog ++ diff,
        cursorAfter := r.2 }

/-! ## Concrete fixtures used by witnesses and counterexamples -/

/-- A log record with only id and content of interest. -/
def mkLog (i c : String) : LogEntry :=
  { id := i, timestamp := none, level := none, component := none, content := c,
    application := none, source_file := none, raw_log := none }

def evUser : Event := { event_id := "E1", template := "user <*> logged in", is_abnormal := false }

def evDisk : Event := { event_id := "E42", template := "disk <*> failed", is_abnormal := true }

def logAlice : LogEntry := mkLog "l1" "user alice logged in"

def logOther : LogEntry := mkLog "l2" "completely different content"

/-- Oracle outputs for a tick whose single unknown log is a DBSCAN outlier:
one sample with `min_samples=2` is always labelled `-1`; the lone TF-IDF
vocabularies are nonempty for the contents used here, and similarity /
fuzzy values are irrelevant on these runs (no pair is compared). -/
def oOutlier : ClusterOracles :=
  { normalizeLog := fun s => s, vectorizeOk := fun _ => true,
    dbscanLabels := fun _ => [-1], templateVectorizeOk := fun _ => true,
    simGe := fun _ _ _ => false, partialRatio := fun _ _ => 0 }

/-- Oracle outputs for a run whose two unknown logs form one DBSCAN
cluster (label 0). -/
def oPairCluster : ClusterOracles :=
  { normalizeLog := fun s => s, vectorizeOk := fun _ => true,
    dbscanLabels := fun _ => [0, 0], templateVectorizeOk := fun _ => true,
    simGe := fun _ _ _ => false, partialRatio := fun _ _ => 0 }

def logHello : LogEntry := mkLog "h1" "hello strange thing"

/-- A pre-existing catalog template whose wildcard fraction is 4/5 ≥ 0.8. -/
def genericSeed : Event := Event.init "E9" "foo <*> <*> <*> <*>"

def logTask1 : LogEntry := mkLog "t1" "task 1 started"

def logTask2 : LogEntry := mkLog "t2" "task 2 started"

/-- The template the Clusterer mints from `logTask1`/`logTask2`. -/
def evTask : Event :=
  { event_id := "E1", template := "task <*> started", is_abnormal := true }

def logAA : LogEntry := mkLog "g1" "aa bb"

def logCC : LogEntry := mkLog "g2" "cc dd"

def cursorState0 : CursorState :=
  { last_sort_value := some [5, 7], persisted := some [5, 7], last_save_time := 0 }

def hitStrange : Hit :=
  { id := "log1", index := "logs-2025.05", timestamp := some "2025-05-08T00:00:00Z",
    level := some "ERROR", component := none, content := "strange new event token",
    application := none, source_file := none, raw_log := none,
    event_id := none, is_anomaly := none, sort := [9] }

/-- The single per-log action of the outlier tick on `hitStrange` with an
empty catalog. -/
def tickCexAction : LogAction :=
  { index := "logs-2025.05", id := "log1",
    doc := [("event_id", DocVal.null), ("is_anomaly", DocVal.boolean true)],
    doc_as_upsert := true }

/-! ## C3 — template write-back -/

/-- C3: the claim says `save_new_events` bulk-upserts each new template
keyed by its `event_id`.  In fact the code reads `event.id` (elastic.py
line 156) but `Event` defines only `event_id`, `template`, `is_abnormal`
(event.py lines 4-7), so building the actions raises `AttributeError`,
the method's own `except` swallows it, and no template document is ever
written, for any nonempty input. -/
theorem save_new_events_writes_nothing (events : List Event) (e : Event) :
    save_new_events_writes events = [] ∧ pyGetattr e "id" = none := by
  have hattr : ∀ e' : Event, pyGetattr e' "id" = none := by
    intro e'
    simp [pyGetattr, Event.attrs, List.find?]
  refine ⟨?_, hattr e⟩
  cases events with
  | nil => rfl
  | cons e' rest =>
    simp only [save_new_events_writes, save_new_events_actions, hattr e']
    simp

/-! ## C4 — per-log write-back fields -/

/-- C4: the per-log bulk update is keyed by the record id, routed to the
given index, patches only the two fields `event_id` and `is_anomaly`, with
upsert — but the `detection_timestamp` the Scheduler stamped on the record
(scheduler.py lines 124-126) is NOT included in the written doc
(elastic.py lines 115-118), even though `check_anomaly_threshold` filters
on a stored `detection_timestamp` (scheduler.py lines 52-57).  The claim's
"includes the detection_timestamp" is what the surrounding code needs and
is exactly what the write omits. -/
theorem save_logs_omits_detection_timestamp (log : LogEntry) (ts idx : String) :
    save_logs [{ log with detection_timestamp := some ts }] [idx] =
      [{ index := idx, id := log.id,
         doc := [("event_id", match log.event_id with
                  | some s => DocVal.str s
                  | none => DocVal.null),
                 ("is_anomaly", DocVal.boolean log.is_anomaly)],
         doc_as_upsert := true }] ∧
    "detection_timestamp" ∉
      (save_logs_doc { log with detection_timestamp := some ts }).map Prod.fst := by
  constructor
  · simp [save_logs, save_logs_doc]
  · simp [save_logs_doc]

/-- C4 witness: the write for a concrete stamped log. -/
theorem save_logs_omits_detection_timestamp_witness :
    save_logs [{ logAlice with detection_timestamp := some "2025-05-08T00:00:00Z" }]
      ["logs-2025.05"] =
      [{ index := "logs-2025.05", id := "l1",
         doc := [("event_id", DocVal.null), ("is_anomaly", DocVal.boolean false)],
         doc_as_upsert := true }] ∧
    "detection_timestamp" ∉
      (save_logs_doc { logAlice with
        detection_timestamp := some "2025-05-08T00:00:00Z" }).map Prod.fst := by
  have h := save_logs_omits_detection_timestamp logAlice
    "2025-05-08T00:00:00Z" "logs-2025.05"
  exact ⟨by rw [h.1]; decide, h.2⟩

/-! ## C5 — alert threshold and cooldown -/

/-- C5: the POST is issued iff the anomaly count reaches the threshold and
the cooldown has elapsed (a missing `last_alert_time` always passes), and
the stored `last_alert_time` becomes the tick's `now` exactly when the
POST returned HTTP 200 — on any other status or a transport error it is
unchanged (scheduler.py lines 85-110, alert_config_service.py lines
105-123). -/
theorem check_anomaly_threshold_spec (cfg : AlertConfig) (now count : Int)
    (post : PostResult) :
    (check_anomaly_threshold cfg now count post).1
        = (decide (cfg.threshold ≤ count) && alertElapsedOk cfg now) ∧
    (check_anomaly_threshold cfg now count post).2
        = (if (decide (cfg.threshold ≤ count) && alertElapsedOk cfg now)
              && decide (post = PostResult.status 200)
           then some now else cfg.last_alert_time) ∧
    alertElapsedOk { cfg with last_alert_time := none } now = true := by
  refine ⟨?_, ?_, rfl⟩ <;>
  · unfold check_anomaly_threshold
    by_cases h1 : cfg.threshold ≤ count <;>
      by_cases h2 : alertElapsedOk cfg now = true <;>
        cases post with
        | status code =>
          by_cases hc : code = 200 <;>
            simp [h1, h2, hc, Bool.not_eq_true] at *
        | transportError => simp [h1, h2, Bool.not_eq_true] at *

/-! ## C10 — catalog reload ignores stored abnormality -/

/-- C10: `get_events` builds each `Event` from `event_id` and `template`
only (elastic.py lines 139-142); the constructor default then makes
`is_abnormal` exactly the membership of `event_id` in the six seeded ids,
whatever `is_abnormal` the templates index stored. -/
theorem get_events_abnormal_from_seed_list (hits : List EventHit) (h : hits ≠ []) :
    get_events hits = some (hits.map (fun hit =>
      { event_id := hit.event_id, template := hit.template,
        is_abnormal := decide (hit.event_id ∈ abnormal_event_ids) })) := by
  cases hits with
  | nil => exact absurd rfl h
  | cons a rest => simp [get_events, Event.init]

/-- Witness: a stored template `E42` with `is_abnormal: false` in the index
comes back abnormal after reload. -/
theorem get_events_abnormal_from_seed_list_witness :
    get_events [{ event_id := "E42", template := "disk <*> failed",
                  stored_is_abnormal := some false }] =
      some [{ event_id := "E42", template := "disk <*> failed",
              is_abnormal := true }] := by
  have h := get_events_abnormal_from_seed_list
    [{ event_id := "E42", template := "disk <*> failed",
       stored_is_abnormal := some false }] (by decide)
  simpa using h

/-! ## C7 — backend read error -/

/-- C7 counterexample: on a backend error `get_logs` does not return "an
empty list of logs paired with their per-record indices" — it returns the
single bare list `[]` (elastic.py line 102), which is not the 2-tuple
`([], [])` and which the Scheduler's `logs, index_name = ...` unpacking
turns into a `ValueError`. -/
theorem get_logs_error_returns_bare_list :
    (get_logs 100 cursorState0 none).1 = GetLogsRet.bareEmptyList ∧
    unpack2 (get_logs 100 cursorState0 none).1 = none ∧
    unpack2 (GetLogsRet.pair [] []) = some ([], []) := ⟨rfl, rfl, rfl⟩

/-- C7 amended: on a backend read error the tick still aborts before any
write — the bare `[]` makes the Scheduler's unpacking raise and the outer
`except` (scheduler.py line 138) catches it — and both the in-memory and
the persisted cursor are unchanged, as is the catalog, so the next tick
retries from the same point. -/
theorem tick_aborts_on_read_error (o : ClusterOracles) (now : Int)
    (st : CursorState) (catalog : List Event) (ts : String) :
    runTick o now st none catalog ts =
      { logActions := [], diffTemplates := [], eventActions := [],
        catalogAfter := catalog, cursorAfter := st } := rfl

/-! ## C2 — Matcher semantics -/

/-- C2: first prefix-matching template in catalog order wins and sets
`event_id` and `is_anomaly` from that template; with no match anywhere the
log gets `is_anomaly = True`, keeps its `event_id` untouched (in
particular unset when it was unset), and is returned in the unknown set,
which contains exactly the unmatched logs in order. -/
theorem check_anomaly_matcher_spec (events : List Event) (logs : List LogEntry)
    (l : LogEntry) :
    (∀ es₁ e es₂, events = es₁ ++ e :: es₂ →
      (∀ e' ∈ es₁, patternMatch e'.template l.content = false) →
      patternMatch e.template l.content = true →
      classifyLog events l =
        { l with event_id := some e.event_id, is_anomaly := e.is_abnormal }) ∧
    ((∀ e ∈ events, patternMatch e.template l.content = false) →
      classifyLog events l = { l with is_anomaly := true } ∧
      (classifyLog events l).event_id = l.event_id ∧
      (l ∈ logs → classifyLog events l ∈ (check_anomaly logs events).2)) ∧
    (check_anomaly logs events).2 =
      logs.filterMap (fun lg =>
        if (findMatch events lg.content).isSome then none
        else some { lg with is_anomaly := true }) := by
  refine ⟨?_, ?_, ?_⟩
  · intro es₁ e es₂ heq h₁ h₂
    have hfind : findMatch events l.content = some e := by
      subst heq
      unfold findMatch
      rw [List.find?_append]
      have hnone : List.find? (fun e => patternMatch e.template l.content) es₁ = none :=
        List.find?_eq_none.mpr (fun x hx => by simp [h₁ x hx])
      have hcons : List.find? (fun e => patternMatch e.template l.content) (e :: es₂)
          = some e :=
        List.find?_cons_of_pos es₂ h₂
      rw [hnone, hcons]
      rfl
    simp [classifyLog, hfind]
  · intro hall
    have hfind : findMatch events l.content = none :=
      List.find?_eq_none.mpr (fun x hx => by simp [hall x hx])
    refine ⟨by simp [classifyLog, hfind], by simp [classifyLog, hfind], ?_⟩
    intro hl
    unfold check_anomaly
    refine List.mem_filterMap.mpr ⟨l, hl, ?_⟩
    simp [hfind]
  · have key : ∀ ls : List LogEntry,
        ls.filterMap (fun log =>
          if (findMatch events log.content).isSome then none
          else some (classifyLog events log)) =
        ls.filterMap (fun lg =>
          if (findMatch events lg.content).isSome then none
          else some { lg with is_anomaly := true }) := by
      intro ls
      induction ls with
      | nil => rfl
      | cons lg rest ih =>
        by_cases hm : (findMatch events lg.content).isSome
        · simp [List.filterMap_cons, hm, ih]
        · have hnone : findMatch events lg.content = none :=
            Option.not_isSome_iff_eq_none.mp hm
          have hcl : classifyLog events lg = { lg with is_anomaly := true } := by
            simp [classifyLog, hnone]
          simp [List.filterMap_cons, hm, hcl, ih]
    exact key logs

/-- C2 witness: `"user alice logged in"` matches `E1 = "user <*> logged
in"` (benign), while an unrelated content matches nothing, keeps its unset
`event_id`, and lands in the unknown set. -/
theorem check_anomaly_matcher_spec_witness :
    classifyLog [evUser] logAlice =
      { logAlice with event_id := some "E1", is_anomaly := false } ∧
    classifyLog [evUser] logOther = { logOther with is_anomaly := true } ∧
    classifyLog [evUser] logOther ∈ (check_anomaly [logAlice, logOther] [evUser]).2 := by
  have h1 := check_anomaly_matcher_spec [evUser] [logAlice, logOther] logAlice
  have h2 := check_anomaly_matcher_spec [evUser] [logAlice, logOther] logOther
  refine ⟨h1.1 [] evUser [] rfl (by simp) (by decide), ?_, ?_⟩
  · exact (h2.2.1 (by decide)).1
  · exact (h2.2.1 (by decide)).2.2 (by decide)

/-! ## C6 — match stability under catalog growth -/

/-- C6: if the Matcher finds template `e` first on catalog `C`, it finds
the same `e` first on `C ++ D` for any appended `D`, so the log is
assigned the same event id. -/
theorem findMatch_append_stable (C D : List Event) (l : LogEntry) (e : Event)
    (h : findMatch C l.content = some e) :
    findMatch (C ++ D) l.content = some e ∧
    (classifyLog (C ++ D) l).event_id = some e.event_id ∧
    (classifyLog C l).event_id = some e.event_id := by
  have happ : findMatch (C ++ D) l.content = some e := by
    unfold findMatch at h ⊢
    rw [List.find?_append, h]
    rfl
  exact ⟨happ, by simp [classifyLog, happ], by simp [classifyLog, h]⟩

/-- C6 witness: `E1` keeps winning for `"user alice logged in"` after a
new template is appended. -/
theorem findMatch_append_stable_witness :
    findMatch [evUser, evDisk] logAlice.content = some evUser ∧
    (classifyLog [evUser, evDisk] logAlice).event_id = some "E1" ∧
    (classifyLog [evUser] logAlice).event_id = some "E1" := by
  have h := findMatch_append_stable [evUser] [evDisk] logAlice evUser (by decide)
  exact ⟨h.1, h.2.1, h.2.2⟩

/-! ## Supporting lemmas about the Clusterer's stages -/

theorem mem_insertByLen {x e : Event} {es : List Event} :
    x ∈ insertByLen e es ↔ x = e ∨ x ∈ es := by
  induction es with
  | nil => simp [insertByLen]
  | cons f fs ih =>
    by_cases h : e.template.length ≤ f.template.length
    · simp [insertByLen, h]
    · simp [insertByLen, h, ih]
      tauto

theorem mem_sortByLen {x : Event} {es : List Event} :
    x ∈ sortByLen es ↔ x ∈ es := by
  induction es with
  | nil => simp [sortByLen]
  | cons e es ih => simp [sortByLen, mem_insertByLen, ih]

theorem length_insertByLen (e : Event) (es : List Event) :
    (insertByLen e es).length = es.length + 1 := by
  induction es with
  | nil => rfl
  | cons f fs ih =>
    by_cases h : e.template.length ≤ f.template.length
    · simp [insertByLen, h]
    · simp [insertByLen, h, ih]

theorem length_sortByLen (es : List Event) :
    (sortByLen es).length = es.length := by
  induction es with
  | nil => rfl
  | cons e es ih => simp [sortByLen, length_insertByLen, ih]

/-- The survivor appended by one merge step is one of the input templates. -/
theorem mergeStep_mem (ts : List Event) (sim : Nat → Nat → Bool)
    (st : List Bool × List Event) (i : Nat) (hi : i < ts.length)
    (hst : ∀ x ∈ st.2, x ∈ ts) :
    ∀ x ∈ (mergeStep ts sim st i).2, x ∈ ts := by
  intro x hx
  unfold mergeStep at hx
  by_cases hflag : st.1.getD i false
  · rw [if_pos hflag] at hx
    exact hst x hx
  · rw [if_neg hflag] at hx
    simp only [List.mem_append, List.mem_singleton] at hx
    rcases hx with hx | hx
    · exact hst x hx
    · -- x is the chosen median; it belongs to the sorted group, hence to ts
      subst hx
      set js := (List.range ts.length).filter (fun j =>
        decide (i < j) && sim i j && !(st.1.getD j false)) with hjs
      set group := ts.getD i default :: js.map (fun j => ts.getD j default) with hgroup
      have hgrouplen : 0 < group.length := by simp [hgroup]
      have hk : group.length / 2 < (sortByLen group).length := by
        rw [length_sortByLen]
        exact Nat.div_lt_self hgrouplen (by norm_num)
      have hchosen : (sortByLen group).getD (group.length / 2) default ∈ sortByLen group := by
        rw [List.getD_eq_getElem?_getD, List.getElem?_eq_getElem hk]
        exact List.getElem_mem hk
      have hmem : (sortByLen group).getD (group.length / 2) default ∈ group :=
        mem_sortByLen.mp hchosen
      have hsub : ∀ y ∈ group, y ∈ ts := by
        intro y hy
        rw [hgroup] at hy
        rcases List.mem_cons.mp hy with hy | hy
        · subst hy
          rw [List.getD_eq_getElem?_getD, List.getElem?_eq_getElem hi]
          exact List.getElem_mem hi
        · rcases List.mem_map.mp hy with ⟨j, hj, rfl⟩
          have hj' := hj
          rw [hjs] at hj'
          have hjlt : j < ts.length := List.mem_range.mp (List.mem_filter.mp hj').1
          rw [List.getD_eq_getElem?_getD, List.getElem?_eq_getElem hjlt]
          exact List.getElem_mem hjlt
      exact hsub _ hmem

/-- Every survivor of the greedy merge is one of the input templates. -/
theorem mem_merge_sub (ts : List Event) (sim : Nat → Nat → Bool) :
    ∀ x ∈ _merge_similar_templates ts sim, x ∈ ts := by
  have haux : ∀ (l : List Nat) (st : List Bool × List Event),
      (∀ i ∈ l, i < ts.length) → (∀ x ∈ st.2, x ∈ ts) →
      ∀ x ∈ (l.foldl (mergeStep ts sim) st).2, x ∈ ts := by
    intro l
    induction l with
    | nil => intro st _ hst x hx; exact hst x hx
    | cons i rest ih =>
      intro st hl hst x hx
      exact ih (mergeStep ts sim st i)
        (fun j hj => hl j (List.mem_cons_of_mem _ hj))
        (mergeStep_mem ts sim st i (hl i (List.mem_cons_self _ _)) hst) x hx
  intro x hx
  unfold _merge_similar_templates at hx
  by_cases h : ts = []
  · rw [if_pos h] at hx
    simp at hx
  · rw [if_neg h] at hx
    exact haux (List.range ts.length) _ (fun i hi => List.mem_range.mp hi)
      (by simp) x hx

/-- Deduplication only drops elements. -/
theorem mem_dedupByTemplate_sub (es : List Event) :
    ∀ x ∈ dedupByTemplate es, x ∈ es := by
  have haux : ∀ (l : List Event) (acc : List String × List Event),
      ∀ x ∈ (l.foldl dedupStep acc).2, x ∈ acc.2 ∨ x ∈ l := by
    intro l
    induction l with
    | nil => intro acc x hx; exact Or.inl hx
    | cons e rest ih =>
      intro acc x hx
      rcases ih (dedupStep acc e) x hx with hx' | hx'
      · unfold dedupStep at hx'
        by_cases h : e.template ∈ acc.1
        · rw [if_pos h] at hx'
          exact Or.inl hx'
        · rw [if_neg h] at hx'
          simp only [List.mem_append, List.mem_singleton] at hx'
          rcases hx' with hx' | hx'
          · exact Or.inl hx'
          · exact Or.inr (by simp [hx'])
      · exact Or.inr (List.mem_cons_of_mem _ hx')
  intro x hx
  rcases haux es ([], []) x hx with h | h
  · simp at h
  · exact h

/-- Values of the `normalized_to_event` dict after an insertion keep any
property the old values and the new value have. -/
theorem dictInsert_values (P : String → Prop) (d : List (String × String))
    (k v : String) (hd : ∀ p ∈ d, P p.2) (hv : P v) :
    ∀ p ∈ dictInsert d k v, P p.2 := by
  intro p hp
  unfold dictInsert at hp
  by_cases h : d.any (fun p => p.1 = k)
  · rw [if_pos h] at hp
    rcases List.mem_map.mp hp with ⟨q, hq, rfl⟩
    by_cases hk : q.1 = k
    · simpa [hk] using hv
    · simpa [hk] using hd q hq
  · rw [if_neg h] at hp
    rcases List.mem_append.mp hp with hp | hp
    · exact hd p hp
    · rcases List.mem_singleton.mp hp with rfl
      exact hv

/-- Every value of `normalized_to_event` is the event id of a renumbered
survivor. -/
theorem normalizedToEvent_values (P : String → Prop) (l : List Event)
    (hl : ∀ e ∈ l, P e.event_id) :
    ∀ p ∈ normalizedToEvent l, P p.2 := by
  have haux : ∀ (l' : List Event) (d : List (String × String)),
      (∀ p ∈ d, P p.2) → (∀ e ∈ l', P e.event_id) →
      ∀ p ∈ l'.foldl (fun d e =>
        dictInsert d (normalize_template e.template) e.event_id) d, P p.2 := by
    intro l'
    induction l' with
    | nil => intro d hd _ p hp; exact hd p hp
    | cons e rest ih =>
      intro d hd hl' p hp
      exact ih _ (dictInsert_values P d _ _ hd (hl' e (List.mem_cons_self _ _)))
        (fun e' he' => hl' e' (List.mem_cons_of_mem _ he')) p hp
  exact haux l [] (by simp) hl

/-- A fuzzy best hit is the value of some dict item. -/
theorem bestFuzzy_mem (pr : String → String → Nat) (norm : String)
    (d : List (String × String)) (v : String)
    (h : (bestFuzzy pr norm d).2 = some v) : ∃ q ∈ d, q.2 = v := by
  have haux : ∀ (l : List (String × String)) (init : Nat × Option String),
      (l.foldl (fuzzyStep pr norm) init).2 = some v →
      init.2 = some v ∨ ∃ q ∈ l, q.2 = v := by
    intro l
    induction l with
    | nil => intro init h'; exact Or.inl h'
    | cons q rest ih =>
      intro init h'
      rcases ih (fuzzyStep pr norm init q) h' with h'' | h''
      · unfold fuzzyStep at h''
        by_cases hlt : init.1 < pr norm q.1
        · rw [if_pos hlt] at h''
          exact Or.inr ⟨q, List.mem_cons_self _ _, by injection h''⟩
        · rw [if_neg hlt] at h''
          exact Or.inl h''
      · rcases h'' with ⟨q', hq', hv⟩
        exact Or.inr ⟨q', List.mem_cons_of_mem _ hq', hv⟩
  rcases haux d (0, none) h with h' | h'
  · cases h'
  · exact h'

/-- Every event id a residue log is assigned comes from the dict. -/
theorem residueAssignments_values (P : String → Prop)
    (pr : String → String → Nat) (dict : List (String × String))
    (l2r : List (Nat × String)) (hd : ∀ q ∈ dict, P q.2) :
    ∀ p ∈ residueAssignments pr dict l2r, P p.2 := by
  intro p hp
  unfold residueAssignments at hp
  rcases List.mem_filterMap.mp hp with ⟨a, _, hfa⟩
  rcases hfind : dict.find? (fun q => q.1 = normalize_template a.2) with _ | q
  · rw [hfind] at hfa
    rcases hbest : (bestFuzzy pr (normalize_template a.2) dict).2 with _ | eid
    · rw [hbest] at hfa
      cases hfa
    · rw [hbest] at hfa
      dsimp only at hfa
      split at hfa
      · injection hfa with hfa'
        rcases bestFuzzy_mem pr _ dict eid hbest with ⟨q', hq', hv⟩
        have hP : P eid := hv ▸ hd q' hq'
        rw [← hfa']
        simpa using hP
      · cases hfa
  · rw [hfind] at hfa
    injection hfa with hfa'
    have : P q.2 := hd q (List.mem_of_find?_eq_some hfind)
    rw [← hfa']
    simpa using this

/-- Every raw template kept by the per-cluster pass passed the genericity
gate. -/
theorem clustersFold_not_generic (unknown : List LogEntry) (labels : List Int)
    (dls : List Int) :
    ∀ t ∈ (clustersFold unknown labels dls).1,
      _is_template_too_generic t = false := by
  induction dls with
  | nil => simp [clustersFold]
  | cons lab rest ih =>
    intro t ht
    unfold clustersFold at ht
    by_cases hg : _is_template_too_generic (_generate_template_from_cluster
      ((labelIndices labels lab).map (fun i => (unknown.getD i default).content)))
    · rw [if_pos hg] at ht
      exact ih t ht
    · rw [if_neg hg] at ht
      rcases List.mem_cons.mp ht with rfl | ht'
      · exact Bool.not_eq_true _ ▸ (by simpa using hg)
      · exact ih t ht'

/-- Case analysis on a successful Clusterer run: either an early-return
branch fired (empty input, empty valid contents, or failed first
vectorizer) and the catalog came back unchanged with no assignments, or
the full pipeline ran and `final` / `asg` have the merge-renumber-assign
shape. -/
theorem cluster_cases (o : ClusterOracles) (unknown : List LogEntry)
    (catalog final : List Event) (asg : List (Nat × String))
    (h : cluster_and_generate_templates o unknown catalog = some (final, asg)) :
    ((unknown = [] ∨ clusterValidContents o unknown = [] ∨
        o.vectorizeOk (clusterValidContents o unknown) = false) ∧
      final = catalog ∧ asg = []) ∨
    (final = (_merge_similar_templates
        (dedupByTemplate (catalog ++ (clusterStep o unknown).1.map
          (fun t => Event.init "" t true)))
        (o.simGe ((dedupByTemplate (catalog ++ (clusterStep o unknown).1.map
          (fun t => Event.init "" t true))).map
          (fun e => normalize_template e.template)))).enum.map
        (fun p => { p.2 with event_id := "E" ++ toString (p.1 + 1) }) ∧
      asg = residueAssignments o.partialRatio (normalizedToEvent final)
          (clusterStep o unknown).2.1
        ++ (clusterStep o unknown).2.2.map (fun i => (i, "E0"))) := by
  unfold cluster_and_generate_templates at h
  dsimp only at h
  split at h
  next hempty =>
    simp only [Option.some.injEq, Prod.mk.injEq] at h
    exact Or.inl ⟨Or.inl hempty, h.1.symm, h.2.symm⟩
  next hne =>
    split at h
    next hval =>
      simp only [Option.some.injEq, Prod.mk.injEq] at h
      exact Or.inl ⟨Or.inr (Or.inl hval), h.1.symm, h.2.symm⟩
    next hval =>
      split at h
      next hvec =>
        simp only [Option.some.injEq, Prod.mk.injEq] at h
        exact Or.inl ⟨Or.inr (Or.inr (by simpa using hvec)), h.1.symm, h.2.symm⟩
      next hvec =>
        split at h
        next htv => simp at h
        next htv =>
          simp only [Option.some.injEq, Prod.mk.injEq] at h
          obtain ⟨hfin, hasg⟩ := h
          right
          refine ⟨hfin.symm, ?_⟩
          rw [← hasg, hfin]

/-- Every element of the reassembled log list is a matcher output or an
element of the post-Clusterer unknown list. -/
theorem mem_mergeBack (pairs : List (LogEntry × Bool)) (us : List LogEntry) :
    ∀ x ∈ mergeBack pairs us, (∃ p ∈ pairs, x = p.1) ∨ x ∈ us := by
  induction pairs generalizing us with
  | nil =>
    intro x hx
    simp [mergeBack] at hx
  | cons p rest ih =>
    intro x hx
    rcases p with ⟨l, matched⟩
    cases matched with
    | true =>
      rcases List.mem_cons.mp hx with rfl | hx'
      · exact Or.inl ⟨(x, true), List.mem_cons_self _ _, rfl⟩
      · rcases ih us x hx' with ⟨q, hq, hxq⟩ | h'
        · exact Or.inl ⟨q, List.mem_cons_of_mem _ hq, hxq⟩
        · exact Or.inr h'
    | false =>
      cases us with
      | nil =>
        rcases List.mem_cons.mp hx with rfl | hx'
        · exact Or.inl ⟨(x, false), List.mem_cons_self _ _, rfl⟩
        · rcases ih [] x hx' with ⟨q, hq, hxq⟩ | h'
          · exact Or.inl ⟨q, List.mem_cons_of_mem _ hq, hxq⟩
          · simp at h'
      | cons u urest =>
        rcases List.mem_cons.mp hx with rfl | hx'
        · exact Or.inr (List.mem_cons_self _ _)
        · rcases ih urest x hx' with ⟨q, hq, hxq⟩ | h'
          · exact Or.inl ⟨q, List.mem_cons_of_mem _ hq, hxq⟩
          · exact Or.inr (List.mem_cons_of_mem _ h')

/-- Every element after applying the Clusterer's mutations is either an
untouched unknown log or an unknown log with one of the recorded
assignments written into it. -/
theorem mem_applyAssignments (us : List LogEntry) (asg : List (Nat × String)) :
    ∀ x ∈ applyAssignments us asg,
      x ∈ us ∨ ∃ u ∈ us, ∃ pr ∈ asg,
        x = { u with event_id := some pr.2, is_anomaly := true } := by
  induction asg generalizing us with
  | nil => intro x hx; exact Or.inl hx
  | cons pr rest ih =>
    intro x hx
    have hstep : ∀ y ∈ (match us[pr.1]? with
        | some l => us.set pr.1 { l with event_id := some pr.2, is_anomaly := true }
        | none => us),
        y ∈ us ∨ ∃ u ∈ us, y = { u with event_id := some pr.2, is_anomaly := true } := by
      intro y hy
      rcases hidx : us[pr.1]? with _ | l
      · rw [hidx] at hy
        exact Or.inl hy
      · rw [hidx] at hy
        rcases List.mem_or_eq_of_mem_set hy with hy' | rfl
        · exact Or.inl hy'
        · exact Or.inr ⟨l, List.getElem?_mem hidx, rfl⟩
    have hx' : x ∈ applyAssignments (match us[pr.1]? with
        | some l => us.set pr.1 { l with event_id := some pr.2, is_anomaly := true }
        | none => us) rest := hx
    rcases ih _ x hx' with hmem | ⟨u, hu, pr', hpr', rfl⟩
    · rcases hstep x hmem with hy | ⟨u, hu, rfl⟩
      · exact Or.inl hy
      · exact Or.inr ⟨u, hu, pr, List.mem_cons_self _ _, rfl⟩
    · rcases hstep u hu with hy | ⟨u₀, hu₀, rfl⟩
      · exact Or.inr ⟨u, hy, pr', List.mem_cons_of_mem _ hpr', rfl⟩
      · exact Or.inr ⟨u₀, hu₀, pr', List.mem_cons_of_mem _ hpr', rfl⟩

/-- Every bulk action of `save_logs` carries the doc of one of the logs. -/
theorem mem_save_logs (logs : List LogEntry) (idxs : List String)
    (a : LogAction) (ha : a ∈ save_logs logs idxs) :
    ∃ l ∈ logs, a.doc = save_logs_doc l ∧ a.id = l.id := by
  unfold save_logs at ha
  rcases List.mem_map.mp ha with ⟨p, hp, rfl⟩
  exact ⟨p.1, (List.of_mem_zip hp).1, rfl, rfl⟩

/-- A classified log is either the first-match enrichment by a catalog
template or the unmatched log with only `is_anomaly` set. -/
theorem classifyLog_cases (catalog : List Event) (lg : LogEntry) :
    (∃ e ∈ catalog, classifyLog catalog lg =
      { lg with event_id := some e.event_id, is_anomaly := e.is_abnormal }) ∨
    classifyLog catalog lg = { lg with is_anomaly := true } := by
  unfold classifyLog
  rcases h : findMatch catalog lg.content with _ | e
  · exact Or.inr rfl
  · exact Or.inl ⟨e, List.mem_of_find?_eq_some h, rfl⟩

/-- Every event id the Clusterer assigns to a log is `E0` or a freshly
minted `E(k+1)`. -/
theorem cluster_asg_values (o : ClusterOracles) (unknown : List LogEntry)
    (catalog final : List Event) (asg : List (Nat × String))
    (h : cluster_and_generate_templates o unknown catalog = some (final, asg)) :
    ∀ pr ∈ asg, pr.2 = "E0" ∨ ∃ k : Nat, pr.2 = "E" ++ toString (k + 1) := by
  rcases cluster_cases o unknown catalog final asg h with ⟨_, _, hasg⟩ | ⟨hfin, hasg⟩
  · rw [hasg]
    intro pr hpr
    simp at hpr
  · intro pr hpr
    rw [hasg] at hpr
    rcases List.mem_append.mp hpr with hpr' | hpr'
    · refine Or.inr ?_
      have hvals : ∀ e ∈ final, ∃ k : Nat, e.event_id = "E" ++ toString (k + 1) := by
        intro e he
        rw [hfin] at he
        rcases List.mem_map.mp he with ⟨q, _, rfl⟩
        exact ⟨q.1, rfl⟩
      have hdict : ∀ q ∈ normalizedToEvent final,
          ∃ k : Nat, q.2 = "E" ++ toString (k + 1) :=
        normalizedToEvent_values (fun v => ∃ k : Nat, v = "E" ++ toString (k + 1))
          final hvals
      exact residueAssignments_values
        (fun v => ∃ k : Nat, v = "E" ++ toString (k + 1))
        o.partialRatio (normalizedToEvent final) (clusterStep o unknown).2.1
        hdict pr hpr'
    · rcases List.mem_map.mp hpr' with ⟨i, _, rfl⟩
      exact Or.inl rfl

/-! ## C8 — genericity gate -/

/-- C8 counterexample: the genericity gate is applied only to newly
synthesized templates (clustering.py lines 170-173); a pre-existing
catalog template whose wildcard fraction is ≥ 0.8 passes untouched into
the returned catalog.  Concretely, with catalog
`[Event("E9", "foo <*> <*> <*> <*>")]` (fraction 4/5) and one unknown log
that DBSCAN marks as an outlier, the Clusterer returns that generic
template (renumbered `E1`), violating "every template in the returned
catalog has fraction strictly below 0.8". -/
theorem clusterer_keeps_generic_existing_template :
    cluster_and_generate_templates oOutlier [logHello] [genericSeed] =
      some ([{ event_id := "E1", template := "foo <*> <*> <*> <*>",
               is_abnormal := false }], []) ∧
    _is_template_too_generic "foo <*> <*> <*> <*>" = true := by
  exact ⟨by decide, by decide⟩

/-- C8 (amended): on a full Clusterer run, every newly synthesized
template that survives into the merge has wildcard fraction strictly
below 0.8 — pre-existing catalog templates are not re-checked, so a
returned template either reuses a pre-existing template string or passes
the gate — and every log of a cluster whose synthesized template reached
the 0.8 fraction is assigned `E0` instead of that template. -/
theorem clusterer_genericity_gate (o : ClusterOracles) (unknown : List LogEntry)
    (catalog final : List Event) (asg : List (Nat × String))
    (hne : unknown ≠ []) (hval : clusterValidContents o unknown ≠ [])
    (hvec : o.vectorizeOk (clusterValidContents o unknown) = true)
    (h : cluster_and_generate_templates o unknown catalog = some (final, asg)) :
    (∀ t ∈ (clusterStep o unknown).1, _is_template_too_generic t = false) ∧
    (∀ e ∈ final, (∃ e₀ ∈ catalog, e.template = e₀.template) ∨
      _is_template_too_generic e.template = false) ∧
    (∀ i ∈ (clusterStep o unknown).2.2, (i, "E0") ∈ asg) := by
  have hgate : ∀ t ∈ (clusterStep o unknown).1,
      _is_template_too_generic t = false :=
    clustersFold_not_generic unknown
      (o.dbscanLabels (clusterValidContents o unknown))
      (distinctLabels (o.dbscanLabels (clusterValidContents o unknown)))
  rcases cluster_cases o unknown catalog final asg h with ⟨hbr, _, _⟩ | ⟨hfin, hasg⟩
  · rcases hbr with hbr | hbr | hbr
    · exact absurd hbr hne
    · exact absurd hbr hval
    · rw [hvec] at hbr
      cases hbr
  · refine ⟨hgate, ?_, ?_⟩
    · intro e he
      rw [hfin] at he
      rcases List.mem_map.mp he with ⟨q, hq, rfl⟩
      have hq2 : q.2 ∈ _merge_similar_templates
          (dedupByTemplate (catalog ++ (clusterStep o unknown).1.map
            (fun t => Event.init "" t true)))
          (o.simGe ((dedupByTemplate (catalog ++ (clusterStep o unknown).1.map
            (fun t => Event.init "" t true))).map
            (fun e => normalize_template e.template))) :=
        List.getElem?_mem (List.mem_enum_iff_getElem?.mp hq)
      have hq3 := mem_dedupByTemplate_sub _ _ (mem_merge_sub _ _ _ hq2)
      rcases List.mem_append.mp hq3 with hcat | hnew
      · exact Or.inl ⟨q.2, hcat, rfl⟩
      · rcases List.mem_map.mp hnew with ⟨t, ht, heq⟩
        right
        have htpl : ({ q.2 with event_id := "E" ++ toString (q.1 + 1) } : Event).template
            = q.2.template := rfl
        rw [htpl, ← heq]
        exact hgate t ht
    · intro i hi
      rw [hasg]
      exact List.mem_append.mpr (Or.inr (List.mem_map.mpr ⟨i, hi, rfl⟩))

/-- C8 witness: two unknown logs forming one cluster whose synthesized
template is the fully generic `"<*>"`; both logs are assigned `E0`. -/
theorem clusterer_genericity_gate_witness :
    ((0 : Nat), "E0") ∈ ([((0 : Nat), "E0"), (1, "E0")] : List (Nat × String)) := by
  have h := clusterer_genericity_gate oPairCluster [logAA, logCC] [] []
    [(0, "E0"), (1, "E0")] (by decide) (by decide) rfl (by decide)
  exact h.2.2 0 (by decide)

/-! ## C9 — new templates are abnormal -/

/-- C9: every candidate Event the Clusterer creates for a newly
synthesized template is constructed `Event("", template, is_abnormal=True)`
(clustering.py line 180), whose flag is True; merging and renumbering keep
the flag, so a surviving template whose string is genuinely new is
abnormal, and a log the Matcher later matches against it is marked
`is_anomaly = True` (anomaly.py line 29). -/
theorem clusterer_new_templates_abnormal (o : ClusterOracles)
    (unknown : List LogEntry) (catalog final : List Event)
    (asg : List (Nat × String))
    (h : cluster_and_generate_templates o unknown catalog = some (final, asg)) :
    (∀ t : String, (Event.init "" t true).is_abnormal = true) ∧
    ∀ e ∈ final, (∀ e₀ ∈ catalog, e.template ≠ e₀.template) →
      e.is_abnormal = true ∧
      ∀ (lg : LogEntry) (C : List Event), findMatch C lg.content = some e →
        (classifyLog C lg).is_anomaly = true := by
  refine ⟨fun t => by simp [Event.init], ?_⟩
  intro e he hnew
  have habn : e.is_abnormal = true := by
    rcases cluster_cases o unknown catalog final asg h with ⟨_, hfin, _⟩ | ⟨hfin, _⟩
    · rw [hfin] at he
      exact absurd rfl (hnew e he)
    · rw [hfin] at he
      rcases List.mem_map.mp he with ⟨q, hq, rfl⟩
      have hq2 : q.2 ∈ _merge_similar_templates
          (dedupByTemplate (catalog ++ (clusterStep o unknown).1.map
            (fun t => Event.init "" t true)))
          (o.simGe ((dedupByTemplate (catalog ++ (clusterStep o unknown).1.map
            (fun t => Event.init "" t true))).map
            (fun e => normalize_template e.template))) :=
        List.getElem?_mem (List.mem_enum_iff_getElem?.mp hq)
      have hq3 := mem_dedupByTemplate_sub _ _ (mem_merge_sub _ _ _ hq2)
      rcases List.mem_append.mp hq3 with hcat | hnew'
      · exact absurd rfl (hnew q.2 hcat)
      · rcases List.mem_map.mp hnew' with ⟨t, _, heq⟩
        have habn' : ({ q.2 with event_id := "E" ++ toString (q.1 + 1) } : Event).is_abnormal
            = q.2.is_abnormal := rfl
        rw [habn', ← heq]
        simp [Event.init]
  refine ⟨habn, ?_⟩
  intro lg C hm
  simp [classifyLog, hm, habn]

/-- C9 witness: `"task 1 started"`/`"task 2 started"` cluster into the new
template `"task <*> started"`, which survives as `E1` with
`is_abnormal = true`; a later log matching it is flagged anomalous. -/
theorem clusterer_new_templates_abnormal_witness :
    evTask.is_abnormal = true ∧
    (classifyLog [evTask] (mkLog "x" "task 9 started")).is_anomaly = true := by
  have h := clusterer_new_templates_abnormal oPairCluster [logTask1, logTask2] []
    [evTask] [(0, "E1"), (1, "E1")] (by decide)
  have h2 := h.2 evTask (by decide) (by simp)
  exact ⟨h2.1, h2.2 (mkLog "x" "task 9 started") [evTask] (by decide)⟩

/-! ## C1 — write-back invariant -/

/-- C1 counterexample: an unmatched singleton log is a DBSCAN outlier
(one sample, `min_samples=2`), the Clusterer assigns it nothing
(clustering.py line 157 skips label −1), and the Writer still writes it
with `is_anomaly: true` and `event_id: null` — refuting "no record is
written back with `is_anomaly=true` and `event_id` unset". -/
theorem tick_writes_anomaly_without_event_id :
    (runTick oOutlier 100 cursorState0 (some [hitStrange]) [] "TS").logActions =
      [{ index := "logs-2025.05", id := "log1",
         doc := [("event_id", DocVal.null), ("is_anomaly", DocVal.boolean true)],
         doc_as_upsert := true }] := by decide

/-- C1 (amended): every log written back carries both the `event_id` and
`is_anomaly` keys, and whenever `is_anomaly` is true the `event_id` is a
known-abnormal catalog template id, the bucket id `E0`, a newly minted
`E(k+1)`, or is left at the value the record was read with — in
particular it may remain unset for unmatched logs the Clusterer assigned
nothing to (DBSCAN outliers, sub-70 fuzzy lookups). -/
theorem tick_log_writes_invariant (o : ClusterOracles) (now : Int)
    (st : CursorState) (resp : Option (List Hit)) (catalog : List Event)
    (ts : String) :
    ∀ a ∈ (runTick o now st resp catalog ts).logActions,
      a.doc.map Prod.fst = ["event_id", "is_anomaly"] ∧
      ∃ l : LogEntry, a.doc = save_logs_doc l ∧
        (l.is_anomaly = true →
          (∃ e ∈ catalog, e.is_abnormal = true ∧ l.event_id = some e.event_id) ∨
          l.event_id = some "E0" ∨
          (∃ k : Nat, l.event_id = some ("E" ++ toString (k + 1))) ∨
          (∃ hits, resp = some hits ∧ ∃ hit ∈ hits, l.event_id = hit.event_id)) := by
  intro a ha
  cases resp with
  | none => simp [runTick, get_logs, unpack2] at ha
  | some hits =>
    unfold runTick at ha
    dsimp only [get_logs, unpack2] at ha
    split at ha
    next heq => simp at ha
    next nt asg heq =>
      obtain ⟨l, hl, hdoc, -⟩ := mem_save_logs _ _ a ha
      refine ⟨by rw [hdoc]; rfl, l, hdoc, ?_⟩
      intro hanom
      have hpairP : ∀ lg ∈ (hits.map hitToLogEntry).map
          (fun l0 => { l0 with detection_timestamp := some ts }),
          (classifyLog catalog lg).is_anomaly = true →
          (∃ e ∈ catalog, e.is_abnormal = true ∧
            (classifyLog catalog lg).event_id = some e.event_id) ∨
          (∃ hit ∈ hits, (classifyLog catalog lg).event_id = hit.event_id) := by
        intro lg hlg han
        rcases classifyLog_cases catalog lg with ⟨e, he, hcl⟩ | hcl
        · refine Or.inl ⟨e, he, ?_, by rw [hcl]⟩
          rw [hcl] at han
          exact han
        · right
          rcases List.mem_map.mp hlg with ⟨l0, hl0, rfl⟩
          rcases List.mem_map.mp hl0 with ⟨hit, hhit, rfl⟩
          exact ⟨hit, hhit, by rw [hcl]; rfl⟩
      rcases mem_mergeBack _ _ l hl with ⟨p, hp, rfl⟩ | hl'
      · rcases List.mem_map.mp hp with ⟨lg, hlg, rfl⟩
        rcases hpairP lg hlg hanom with ⟨e, he, habn, hid⟩ | ⟨hit, hhit, hid⟩
        · exact Or.inl ⟨e, he, habn, hid⟩
        · exact Or.inr (Or.inr (Or.inr ⟨hits, rfl, hit, hhit, hid⟩))
      · rcases mem_applyAssignments _ _ l hl' with hmem | ⟨u, hu, pr, hpr, rfl⟩
        · rcases List.mem_filterMap.mp hmem with ⟨p, hp, hif⟩
          rcases List.mem_map.mp hp with ⟨lg, hlg, rfl⟩
          dsimp only at hif
          by_cases hm : (findMatch catalog lg.content).isSome = true
          · rw [if_pos hm] at hif
            cases hif
          · rw [if_neg hm] at hif
            injection hif with hif'
            rw [← hif'] at hanom ⊢
            rcases hpairP lg hlg hanom with ⟨e, he, habn, hid⟩ | ⟨hit, hhit, hid⟩
            · exact Or.inl ⟨e, he, habn, hid⟩
            · exact Or.inr (Or.inr (Or.inr ⟨hits, rfl, hit, hhit, hid⟩))
        · have hvals := cluster_asg_values o _ catalog nt asg heq pr hpr
          rcases hvals with hE0 | ⟨k, hEk⟩
          · exact Or.inr (Or.inl (by simp [hE0]))
          · exact Or.inr (Or.inr (Or.inl ⟨k, by simp [hEk]⟩))

/-- C1 witness: the amended invariant instantiated on the concrete
outlier run. -/
theorem tick_log_writes_invariant_witness :
    tickCexAction.doc.map Prod.fst = ["event_id", "is_anomaly"] ∧
    ∃ l : LogEntry, tickCexAction.doc = save_logs_doc l ∧
      (l.is_anomaly = true →
        (∃ e ∈ ([] : List Event), e.is_abnormal = true ∧
          l.event_id = some e.event_id) ∨
        l.event_id = some "E0" ∨
        (∃ k : Nat, l.event_id = some ("E" ++ toString (k + 1))) ∨
        (∃ hits, (some [hitStrange] : Option (List Hit)) = some hits ∧
          ∃ hit ∈ hits, l.event_id = hit.event_id)) :=
  tick_log_writes_invariant oOutlier 100 cursorState0 (some [hitStrange]) [] "TS"
    tickCexAction (by decide)
